import Mathlib

/-
A shallow embedding of `src/lib/plugins.ts` (the Protractor plugin
lifecycle / dispatch manager) and proofs about it.

Conventions of the embedding:
* JavaScript `undefined`-or-string values are `Option String` (`none` =
  `undefined`); JS string truthiness (`undefined` and `""` are falsy) is
  `truthyS`.
* A JS object field that may be absent, `undefined`, or a string is `JField`.
* A thrown/rejected JS value is `JSError`: its `message` and `stack`
  properties (possibly `undefined`) and its string conversion `toStr`
  (what `'' + e` produces).
* The two promise conventions (Q and WebDriver) are both normalised to one
  `Settlement` type, mirroring how the code detects a promise with
  `webdriver.promise.isPromise` and pipes both kinds through one deferred.
  A settlement carries a completion time so that order-of-completion
  independence can be stated; synchronous settlements use time 0.
* `q.all` / `webdriver.promise.all` are external collaborators; their
  contract (the combined promise resolves with the individual results in
  input order once every input has settled) is what `runDispatch` models.
* The assertion store `this.assertions` is an insertion-ordered association
  list from spec name to the list of assertion records.
-/

namespace Protractor

/-- A JavaScript value, as far as the claims need to distinguish values:
`undefined`, booleans, strings and numbers.  Hook results and the
`failReturnVal` sentinel live here. -/
inductive JSVal where
  | undef
  | boolV (b : Bool)
  | strV (s : String)
  | numV (n : Int)
deriving DecidableEq, Repr

/-- A thrown or rejected JavaScript value `e`: its `message` property
(`none` when `e.message` is `undefined`, e.g. when a plain string was
thrown), its `stack` property, and `toStr`, the result of converting `e`
itself to a string by concatenation. -/
structure JSError where
  message : Option String
  stack : Option String
  toStr : String
deriving DecidableEq, Repr

/-- String conversion of a possibly-`undefined` string, as JS `+` does it:
`undefined` becomes the text `"undefined"`. -/
def jsStr : Option String → String
  | none => "undefined"
  | some s => s

/-- JS truthiness of a possibly-`undefined` string: `undefined` and the
empty string are falsy. -/
def truthyS : Option String → Bool
  | none => false
  | some s => s != ""

/-- JS `a || b` on a possibly-`undefined` string `a` with fallback `b`. -/
def jsOrStr (a : Option String) (b : String) : String :=
  match a with
  | some s => if s = "" then b else s
  | none => b

/-- A JS object field that can be absent, present-but-`undefined`, or a
string.  Distinguishing absent from `undefined` matters for the shape of
assertion records (`{passed: true}` has no `errorMsg` field at all). -/
inductive JField where
  | absent
  | undef
  | str (s : String)
deriving DecidableEq, Repr

/-- Whether a `JField` is absent from the object. -/
def JField.isAbsent : JField → Bool
  | .absent => true
  | _ => false

/-- An assertion record as built by `addAssertion` in
`src/lib/plugins.ts` lines 95-105: `{passed: bool}` plus an `errorMsg`
field and an optional `stackTrace` field on the failure path. -/
structure Assertion where
  passed : Bool
  errorMsg : JField
  stackTrace : JField
deriving DecidableEq, Repr

/-- The `info` argument of the capability handles:
`{specName?: string, stackTrace?: string}`. -/
structure AssertInfo where
  specName : Option String
  stackTrace : Option String
deriving DecidableEq, Repr

/-- The assertion store `this.assertions`: an insertion-ordered map from
spec name to the ordered list of assertion records pushed under it.
(JS `for..in` returns these string keys in insertion order.) -/
abbrev Store := List (String × List Assertion)

/-- `this.assertions[k] = this.assertions[k] || []; this.assertions[k].push a`:
append `a` to the list at key `k`, creating the key at the end of the
store when it is new. -/
def storePush (store : Store) (k : String) (a : Assertion) : Store :=
  match store with
  | [] => [(k, [a])]
  | (k', l) :: rest =>
      if k' = k then (k', l ++ [a]) :: rest else (k', l) :: storePush rest k a

/-- All assertion records in the store, across all spec names. -/
def storeJoin (store : Store) : List Assertion :=
  store.flatMap (fun p => p.2)

/-- The mutable state of a `Plugins` object that the claims concern:
the assertion store and the monotonic `resultsReported` flag. -/
structure PluginsState where
  assertions : Store
  resultsReported : Bool
deriving DecidableEq, Repr

/-- The assertion record built by `addAssertion` (lines 97-103):
`{passed: passed}`; when failed, `errorMsg` is set to `message` (the field
is present even when `message` is `undefined`), and `stackTrace` is set
only when `info.stackTrace` is truthy. -/
def mkAssertion (passed : Bool) (message : Option String)
    (stackTrace : Option String) : Assertion :=
  if passed then
    { passed := true, errorMsg := .absent, stackTrace := .absent }
  else
    { passed := false,
      errorMsg := match message with | none => .undef | some s => .str s,
      stackTrace :=
        match stackTrace with
        | none => .absent
        | some s => if s = "" then .absent else .str s }

/-- The body of `addAssertion` after the `resultsReported` guard
(lines 95-105): normalise `info`, derive the spec name
(`info.specName || (obj.name + ' Plugin Tests')`), build the record and
push it into the store. -/
def addAssertionCore (st : PluginsState) (objName : String)
    (info : Option AssertInfo) (passed : Bool) (message : Option String) :
    PluginsState :=
  let i := info.getD ⟨none, none⟩
  let specName := jsOrStr i.specName (objName ++ " Plugin Tests")
  let assertion := mkAssertion passed message i.stackTrace
  { st with assertions := storePush st.assertions specName assertion }

/-- The error message thrown by `addAssertion` after results were
reported (lines 91-93). -/
def alreadyReportedMsg : String :=
  "Cannot add new tests results, since they were already reported."

/-- The outcome of calling one of the capability handles: either it threw
(the string is the thrown error message), or it returned normally with the
new state and the log lines it wrote. -/
inductive CapResult where
  | ok (st : PluginsState) (logs : List String)
  | threw (msg : String)
deriving DecidableEq, Repr

/-- `addAssertion` (lines 87-106): throws when `resultsReported` is
already set, otherwise mutates the store via `addAssertionCore`. -/
def addAssertion (st : PluginsState) (objName : String)
    (info : Option AssertInfo) (passed : Bool) (message : Option String) :
    CapResult :=
  if st.resultsReported then .threw alreadyReportedMsg
  else .ok (addAssertionCore st objName info passed message) []

/-- `obj.addFailure` (lines 111-112): `addAssertion(info, false, message)`. -/
def capAddFailure (st : PluginsState) (objName : String)
    (message : Option String) (info : Option AssertInfo) : CapResult :=
  addAssertion st objName info false message

/-- `obj.addSuccess` (line 113): `addAssertion(options, true)`; the
`message` parameter of `addAssertion` is left `undefined`. -/
def capAddSuccess (st : PluginsState) (objName : String)
    (options : Option AssertInfo) : CapResult :=
  addAssertion st objName options true none

/-- The single log line written by `obj.addWarning` (lines 114-120). -/
def addWarningLine (objName : String) (message : Option String)
    (options : Option AssertInfo) : String :=
  let opts := options.getD ⟨none, none⟩
  "Warning " ++
    (if truthyS opts.specName then "in " ++ jsStr opts.specName
     else "from \"" ++ objName ++ "\" plugin") ++
    ": " ++ jsStr message

/-- `obj.addWarning` (lines 114-120): its body only calls `logger.warn`;
it reads neither `this.assertions` nor `this.resultsReported`, so the
state comes back unchanged with one log line. -/
def capAddWarning (st : PluginsState) (objName : String)
    (message : Option String) (options : Option AssertInfo) : CapResult :=
  .ok st [addWarningLine objName message options]

/-- The state carried by a `CapResult`, with a default for the thrown
case (a throw leaves `this` untouched). -/
def CapResult.stateD (r : CapResult) (d : PluginsState) : PluginsState :=
  match r with
  | .ok st _ => st
  | .threw _ => d

/-- One entry of `getResults().specResults`:
`{description: specName, assertions: [...]}`. -/
structure SpecResultR where
  description : String
  assertions : List Assertion
deriving DecidableEq, Repr

/-- The results object returned by `getResults` (lines 163-177). -/
structure Report where
  failedCount : Nat
  specResults : List SpecResultR
deriving DecidableEq, Repr

/-- One iteration of the `for (var specName in this.assertions)` loop in
`getResults` (lines 166-173): push the spec result and add the number of
failed assertions of this spec to `failedCount`. -/
def getResultsStep (acc : Report) (p : String × List Assertion) : Report :=
  { failedCount := acc.failedCount + (p.2.filter (fun a => !a.passed)).length,
    specResults := acc.specResults ++ [⟨p.1, p.2⟩] }

/-- `getResults` (lines 163-177): fold the store into a `Report` starting
from `{failedCount: 0, specResults: []}`, then set `resultsReported`.
(The call to `printPluginResults` only renders the report to the log.) -/
def getResults (st : PluginsState) : Report × PluginsState :=
  (st.assertions.foldl getResultsStep ⟨0, []⟩,
   { st with resultsReported := true })

/-- The name-assignment line of `annotatePluginObj` (lines 108-109):
`obj.name = obj.name || conf.name || conf.path || conf.package ||
('Plugin #' + i)`. -/
def assignName (objName confName confPath confPackage : Option String)
    (i : Nat) : String :=
  jsOrStr objName (jsOrStr confName (jsOrStr confPath
    (jsOrStr confPackage ("Plugin #" ++ toString i))))

/-- First element of the list that is a non-empty string, if any. -/
def firstNonEmpty : List (Option String) → Option String
  | [] => none
  | none :: rest => firstNonEmpty rest
  | some s :: rest => if s = "" then firstNonEmpty rest else some s

/-- Modelled from the spec: for an instance lacking an own name, the
assigned name is "the first non-empty value among the entry's configured
name, configured path, configured package, and the positional fallback
Plugin #index, in that priority order". -/
def specFirstNonEmptyName (confName confPath confPackage : Option String)
    (i : Nat) : String :=
  match firstNonEmpty [confName, confPath, confPackage] with
  | some s => s
  | none => "Plugin #" ++ toString i

/-- `PromiseType` (lines 8-11): which promise library a dispatch point
uses.  Both are normalised to the same `Settlement` model, so the choice
has no semantic effect here beyond being recorded. -/
inductive PromiseType where
  | Q
  | WEBDRIVER
deriving DecidableEq, Repr

/-- The behaviour of one invocation of a plugin hook on given arguments:
it returns a plain value, returns a promise that later resolves or
rejects (at completion time `t`), or throws synchronously. -/
inductive HookBehavior where
  | retValue (v : JSVal)
  | retResolved (v : JSVal) (t : Nat)
  | retRejected (e : JSError) (t : Nat)
  | throws (e : JSError)
deriving DecidableEq, Repr

/-- How a promise settles: fulfilled with a value or rejected with an
error, at completion time `t` (synchronous settlements use `t = 0`). -/
inductive Settlement where
  | fulfilled (v : JSVal) (t : Nat)
  | rejectedS (e : JSError) (t : Nat)
deriving DecidableEq, Repr

/-- The fulfilment value of a settlement, `none` when it rejected. -/
def Settlement.valueOf : Settlement → Option JSVal
  | .fulfilled v _ => some v
  | .rejectedS _ _ => none

/-- The observable outcome of one `safeCallPluginFun` call: the new
`Plugins` state, the reports printed directly to the log (the post-report
side channel), and how the returned promise settles. -/
structure CallResult where
  state : PluginsState
  printed : List SpecResultR
  settled : Settlement
deriving DecidableEq, Repr

/-- The failure message built on the pre-report path of `logError`
(line 241): `'Failure during ' + funName + ': ' + e.message || e`.
JS operator precedence applies `|| e` to the whole concatenation, which
starts with the non-empty literal `'Failure during '` and is therefore
always truthy, so the fallback branch is dead and `e.message` is
stringified (`undefined` included) into the message. -/
def preReportMsg (funName : String) (e : JSError) : String :=
  let s := "Failure during " ++ funName ++ ": " ++ jsStr e.message
  if s = "" then e.toStr else s

/-- The failure message built on the post-report path of `logError`
(line 235): `'Failure during ' + funName + ': ' + (e.message || e)` —
here the parentheses make `|| e` apply to `e.message` alone, so a falsy
`e.message` falls back to the stringified error. -/
def postReportMsg (funName : String) (e : JSError) : String :=
  "Failure during " ++ funName ++ ": " ++
    (match e.message with
     | none => e.toStr
     | some s => if s = "" then e.toStr else s)

/-- `logError` in `safeCallPluginFun` (lines 229-245), run on failure
cause `e` with the promise settling at time `t`.  Post-report: print a
one-off `"<name> Runtime"` report (its `stackTrace` field is set to
`e.stack` even when that is `undefined`).  Pre-report: record a failed
assertion through `addFailure` with `{stackTrace: e.stack}` — the
`resultsReported` guard of this branch is exactly the guard `addAssertion`
checks, so that call cannot throw and is `addAssertionCore`.  Either way
the deferred is fulfilled with `failReturnVal`. -/
def logErrorRun (st : PluginsState) (pluginName funName : String)
    (e : JSError) (failReturnVal : JSVal) (t : Nat) : CallResult :=
  if st.resultsReported then
    { state := st,
      printed := [⟨pluginName ++ " Runtime",
        [{ passed := false,
           errorMsg := .str (postReportMsg funName e),
           stackTrace :=
             match e.stack with | none => .undef | some s => .str s }]⟩],
      settled := .fulfilled failReturnVal t }
  else
    { state := addAssertionCore st pluginName (some ⟨none, e.stack⟩) false
        (some (preReportMsg funName e)),
      printed := [],
      settled := .fulfilled failReturnVal t }

/-- `safeCallPluginFun` (lines 224-259), with the invocation of the hook
abstracted into its `HookBehavior`: a non-promise result fulfills the
deferred at once; a returned promise is piped through (`isPromise` then
`then(fulfill, logError)`); a synchronous throw is caught and handled by
`logError`. -/
def safeCallPluginFun (st : PluginsState) (pluginName funName : String)
    (b : HookBehavior) (failReturnVal : JSVal) : CallResult :=
  match b with
  | .retValue v => ⟨st, [], .fulfilled v 0⟩
  | .retResolved v t => ⟨st, [], .fulfilled v t⟩
  | .retRejected e t => logErrorRun st pluginName funName e failReturnVal t
  | .throws e => logErrorRun st pluginName funName e failReturnVal 0

/-- The value `safeCallPluginFun` fulfills its promise with, as a function
of the hook behaviour alone: the hook's (resolved) value on success, the
caller's `failReturnVal` on sync throw or rejection. -/
def callSettledValue (b : HookBehavior) (failReturnVal : JSVal) : JSVal :=
  match b with
  | .retValue v => v
  | .retResolved v _ => v
  | .retRejected _ _ => failReturnVal
  | .throws _ => failReturnVal

/-- The completion time of the call's settlement. -/
def behaviorTime : HookBehavior → Nat
  | .retValue _ => 0
  | .retResolved _ t => t
  | .retRejected _ t => t
  | .throws _ => 0

/-- A plugin instance as the dispatch layer sees it: its (annotated) name
and, per hook name, either `none` (the property is absent, so the
`if (pluginObj[funName])` guard skips it) or the behaviour of invoking
the hook on given arguments. -/
structure MPlugin where
  name : String
  hooks : String → Option (List JSVal → HookBehavior)

/-- A plugin instance defining exactly one hook. -/
def withHook (n hookName : String) (f : List JSVal → HookBehavior) : MPlugin :=
  { name := n, hooks := fun h => if h = hookName then some f else none }

/-- A dispatch point as produced by `pluginFunFactory`: the hook name it
fans out, its promise convention, and the sentinel result used for a
failed call. -/
structure DispatchPoint where
  funName : String
  promiseType : PromiseType
  failReturnVal : JSVal
deriving DecidableEq, Repr

/-- The optional `failReturnVal?: boolean` parameter as a JS value:
omitted means `undefined`. -/
def jsOfOptBool : Option Bool → JSVal
  | none => .undef
  | some b => .boolV b

/-- `pluginFunFactory` (lines 273-294) as a dispatch-point description. -/
def pluginFunFactory (funName : String) (promiseType : PromiseType)
    (failReturnVal : Option Bool) : DispatchPoint :=
  ⟨funName, promiseType, jsOfOptBool failReturnVal⟩

namespace Plugins

/-- Dispatch point `setup` (line 195). -/
def setup : DispatchPoint := pluginFunFactory "setup" PromiseType.Q none

/-- Dispatch point `teardown` (line 196). -/
def teardown : DispatchPoint := pluginFunFactory "teardown" PromiseType.Q none

/-- Dispatch point `postResults` (line 197). -/
def postResults : DispatchPoint :=
  pluginFunFactory "postResults" PromiseType.Q none

/-- Dispatch point `postTest` (line 198). -/
def postTest : DispatchPoint := pluginFunFactory "postTest" PromiseType.Q none

/-- Dispatch point `onPageLoad` (line 199). -/
def onPageLoad : DispatchPoint :=
  pluginFunFactory "onPageLoad" PromiseType.WEBDRIVER none

/-- Dispatch point `onPageStable` (lines 200-201). -/
def onPageStable : DispatchPoint :=
  pluginFunFactory "onPageStable" PromiseType.WEBDRIVER none

/-- Dispatch point `waitForPromise` (lines 202-203). -/
def waitForPromise : DispatchPoint :=
  pluginFunFactory "waitForPromise" PromiseType.WEBDRIVER none

/-- Dispatch point `waitForCondition` (lines 204-205): the only one with
an explicit fail value, `true`. -/
def waitForCondition : DispatchPoint :=
  pluginFunFactory "waitForCondition" PromiseType.WEBDRIVER (some true)

end Plugins

/-- The body of the function `pluginFunFactory` returns (lines 276-293):
walk the registered plugins in order; for each that defines the hook,
call it through `safeCallPluginFun` and push the promise; combine with
`q.all` / `webdriver.promise.all`, whose contract yields the individual
settlements in push order.  Each call's settlement is independent of the
interleaved state (`safeCallPluginFun_settled`), so one representative
state `st` stands for the state at which each call or rejection handler
actually runs. -/
def runDispatch (st : PluginsState) (d : DispatchPoint) (args : List JSVal) :
    List MPlugin → List (String × Settlement)
  | [] => []
  | p :: rest =>
    match p.hooks d.funName with
    | some f =>
        (p.name,
          (safeCallPluginFun st p.name d.funName (f args) d.failReturnVal).settled)
          :: runDispatch st d args rest
    | none => runDispatch st d args rest

/-- The name/fulfilment-value view of one dispatch entry, forgetting the
completion time. -/
def nameValue (x : String × Settlement) : String × Option JSVal :=
  (x.1, x.2.valueOf)

/-- Change only the completion times of a hook behaviour. -/
def retimeB (g : Nat → Nat) : HookBehavior → HookBehavior
  | .retValue v => .retValue v
  | .retResolved v t => .retResolved v (g t)
  | .retRejected e t => .retRejected e (g t)
  | .throws e => .throws e

/-- Change only the completion times of all of a plugin's hooks. -/
def retimeP (g : Nat → Nat) (p : MPlugin) : MPlugin :=
  { name := p.name,
    hooks := fun h => (p.hooks h).map (fun f args => retimeB g (f args)) }

/-
Helper lemmas, shared between the claim theorems.
-/

/-- The settlement of `safeCallPluginFun` does not depend on the state:
it is always a fulfilment, with the hook's value on success and the
`failReturnVal` on failure. -/
theorem safeCallPluginFun_settled (st : PluginsState) (pluginName funName : String)
    (b : HookBehavior) (failReturnVal : JSVal) :
    (safeCallPluginFun st pluginName funName b failReturnVal).settled
      = Settlement.fulfilled (callSettledValue b failReturnVal) (behaviorTime b) := by
  cases b <;> simp [safeCallPluginFun, logErrorRun, callSettledValue, behaviorTime]
    <;> split <;> rfl

/-- `runDispatch` distributes over list append. -/
theorem runDispatch_append (st : PluginsState) (d : DispatchPoint)
    (args : List JSVal) (l₁ l₂ : List MPlugin) :
    runDispatch st d args (l₁ ++ l₂)
      = runDispatch st d args l₁ ++ runDispatch st d args l₂ := by
  induction l₁ with
  | nil => rfl
  | cons p rest ih =>
      simp only [List.cons_append, runDispatch]
      cases p.hooks d.funName <;> simp [ih]

/-- `runDispatch` is the filterMap that keeps exactly the plugins
defining the hook, paired with their call's settlement. -/
theorem runDispatch_eq_filterMap (st : PluginsState) (d : DispatchPoint)
    (args : List JSVal) (plugins : List MPlugin) :
    runDispatch st d args plugins
      = plugins.filterMap (fun p => (p.hooks d.funName).map (fun f =>
          (p.name, Settlement.fulfilled
            (callSettledValue (f args) d.failReturnVal)
            (behaviorTime (f args))))) := by
  induction plugins with
  | nil => rfl
  | cons p rest ih =>
      simp only [runDispatch, List.filterMap_cons]
      cases hp : p.hooks d.funName with
      | none => simpa using ih
      | some f =>
          simp [hp, safeCallPluginFun_settled, ih]

/-- Retiming a behaviour changes neither its settled value, -/
theorem callSettledValue_retimeB (g : Nat → Nat) (b : HookBehavior)
    (frv : JSVal) : callSettledValue (retimeB g b) frv = callSettledValue b frv := by
  cases b <;> rfl

/-- The names in a dispatch result are exactly the names of the plugins
defining the hook, in registration order. -/
theorem runDispatch_names (st : PluginsState) (d : DispatchPoint)
    (args : List JSVal) (plugins : List MPlugin) :
    (runDispatch st d args plugins).map Prod.fst
      = (plugins.filter (fun p => (p.hooks d.funName).isSome)).map MPlugin.name := by
  induction plugins with
  | nil => rfl
  | cons p rest ih =>
      simp only [runDispatch, List.filter_cons]
      cases hp : p.hooks d.funName with
      | none => simpa [hp] using ih
      | some f => simp [hp, ih]

/-- Applying `nameValue` to a fulfilled entry. -/
theorem nameValue_fulfilled (n : String) (v : JSVal) (t : Nat) :
    nameValue (n, Settlement.fulfilled v t) = (n, some v) := rfl

/-- `retimeP` does not change a plugin's name. -/
theorem retimeP_name (g : Nat → Nat) (p : MPlugin) :
    (retimeP g p).name = p.name := rfl

/-- `retimeP` maps a defined hook to its retimed behaviour. -/
theorem retimeP_hooks_some (g : Nat → Nat) (p : MPlugin) (h : String)
    (f : List JSVal → HookBehavior) (hp : p.hooks h = some f) :
    (retimeP g p).hooks h = some (fun args => retimeB g (f args)) := by
  simp [retimeP, hp]

/-- Changing only the completion times of the plugins' promises leaves
the name/value pairs of a dispatch result unchanged. -/
theorem runDispatch_retime_values (st : PluginsState) (d : DispatchPoint)
    (args : List JSVal) (g : Nat → Nat) (plugins : List MPlugin) :
    (runDispatch st d args (plugins.map (retimeP g))).map nameValue
      = (runDispatch st d args plugins).map nameValue := by
  induction plugins with
  | nil => rfl
  | cons p rest ih =>
      simp only [List.map_cons, runDispatch]
      cases hp : p.hooks d.funName with
      | none =>
          rw [show (retimeP g p).hooks d.funName = none by simp [retimeP, hp]]
          exact ih
      | some f =>
          rw [retimeP_hooks_some g p d.funName f hp]
          simp only [List.map_cons, safeCallPluginFun_settled,
            nameValue_fulfilled, retimeP_name, callSettledValue_retimeB]
          rw [ih]

/-- Unfolding `storeJoin` over a cons cell. -/
theorem storeJoin_cons (k : String) (l : List Assertion) (rest : Store) :
    storeJoin ((k, l) :: rest) = l ++ storeJoin rest := by
  simp [storeJoin]

/-- a record in the store after a push is an old record or the pushed one. -/
theorem mem_storeJoin_push {a x : Assertion} {store : Store} {k : String}
    (h : a ∈ storeJoin (storePush store k x)) :
    a ∈ storeJoin store ∨ a = x := by
  induction store with
  | nil =>
      have hx : storeJoin (storePush ([] : Store) k x) = [x] := by
        simp [storePush, storeJoin]
      rw [hx] at h
      exact Or.inr (List.mem_singleton.mp h)
  | cons p rest ih =>
      obtain ⟨k', l⟩ := p
      by_cases hk : k' = k
      · rw [show storePush ((k', l) :: rest) k x = (k', l ++ [x]) :: rest by
            simp [storePush, hk],
          storeJoin_cons] at h
        rw [storeJoin_cons]
        rcases List.mem_append.mp h with h1 | h1
        · rcases List.mem_append.mp h1 with h2 | h2
          · exact Or.inl (List.mem_append.mpr (Or.inl h2))
          · exact Or.inr (List.mem_singleton.mp h2)
        · exact Or.inl (List.mem_append.mpr (Or.inr h1))
      · rw [show storePush ((k', l) :: rest) k x = (k', l) :: storePush rest k x by
            simp [storePush, hk],
          storeJoin_cons] at h
        rw [storeJoin_cons]
        rcases List.mem_append.mp h with h1 | h1
        · exact Or.inl (List.mem_append.mpr (Or.inl h1))
        · rcases ih h1 with h2 | h2
          · exact Or.inl (List.mem_append.mpr (Or.inr h2))
          · exact Or.inr h2

/-- Counting failed records by filter length is `countP`. -/
theorem filter_not_passed_length (l : List Assertion) :
    (l.filter (fun a => !a.passed)).length
      = l.countP (fun a => a.passed == false) := by
  induction l with
  | nil => rfl
  | cons a rest ih =>
      cases hp : a.passed <;>
        simp [List.filter_cons, List.countP_cons, hp, ih]

/-- The fold in `getResults` adds the failed-record count of the whole
store to the accumulator's `failedCount`. -/
theorem getResults_foldl_failedCount (store : Store) (acc : Report) :
    (store.foldl getResultsStep acc).failedCount
      = acc.failedCount + (storeJoin store).countP (fun a => a.passed == false) := by
  induction store generalizing acc with
  | nil => simp [storeJoin]
  | cons p rest ih =>
      simp only [List.foldl_cons, ih, storeJoin, List.flatMap_cons,
        List.countP_append, getResultsStep, filter_not_passed_length]
      omega

/-
The claim theorems.
-/

/-- C1: for every state, plugin, hook name, hook behaviour (covering every
argument list) and fail value, the promise returned by `safeCallPluginFun`
always settles successfully (it is a `Settlement.fulfilled`, never a
rejection): with the hook's resolved value on success, and with the
caller-specified fail value when the hook throws synchronously or returns
a rejecting promise. -/
theorem safeCallPluginFun_always_fulfills :
    ∀ (st : PluginsState) (pluginName funName : String) (b : HookBehavior)
      (failReturnVal : JSVal),
    (safeCallPluginFun st pluginName funName b failReturnVal).settled
        = Settlement.fulfilled (callSettledValue b failReturnVal) (behaviorTime b)
    ∧ (∀ v : JSVal, callSettledValue (HookBehavior.retValue v) failReturnVal = v)
    ∧ (∀ v t, callSettledValue (HookBehavior.retResolved v t) failReturnVal = v)
    ∧ (∀ e, callSettledValue (HookBehavior.throws e) failReturnVal = failReturnVal)
    ∧ (∀ e t, callSettledValue (HookBehavior.retRejected e t) failReturnVal
          = failReturnVal) := by
  intro st pn fn b frv
  exact ⟨safeCallPluginFun_settled st pn fn b frv,
    fun v => rfl, fun v t => rfl, fun e => rfl, fun e t => rfl⟩

/-- C2: once `getResults()` has run, `resultsReported` is set, and in any
state with `resultsReported` set, a call to `addFailure` or `addSuccess`
throws the "already reported" error while a call to `addWarning` returns
normally, leaves the state as it was, and only writes one log line. -/
theorem post_report_capability_calls :
    ∀ (st : PluginsState) (n : String) (m : Option String)
      (i o : Option AssertInfo),
    (getResults st).2.resultsReported = true
    ∧ (∀ st' : PluginsState, st'.resultsReported = true →
        capAddFailure st' n m i = CapResult.threw alreadyReportedMsg
        ∧ capAddSuccess st' n o = CapResult.threw alreadyReportedMsg
        ∧ capAddWarning st' n m o = CapResult.ok st' [addWarningLine n m o]) := by
  intro st n m i o
  refine ⟨rfl, ?_⟩
  intro st' h
  refine ⟨?_, ?_, rfl⟩ <;> simp [capAddFailure, capAddSuccess, addAssertion, h]

/-- Witness for C2 at a concrete post-report state. -/
theorem post_report_capability_calls_witness :
    capAddFailure ⟨[], true⟩ "P" none none = CapResult.threw alreadyReportedMsg
    ∧ capAddSuccess ⟨[], true⟩ "P" none = CapResult.threw alreadyReportedMsg := by
  have h := (post_report_capability_calls ⟨[], false⟩ "P" none none none).2
    ⟨[], true⟩ rfl
  exact ⟨h.1, h.2.1⟩

/-- C3 (code bug evaluated): at the failing input — the hook name `setup`
and a failure cause without a `message` property whose string form is
`boom` — the pre-report path records the assertion message
`Failure during setup: undefined` rather than the claimed
`Failure during setup: boom`, because `|| e` binds around the whole
concatenation; the post-report path of the very same function, whose
parentheses express the intended precedence, does produce
`Failure during setup: boom`. -/
theorem preReport_message_fallback_evaluated :
    preReportMsg "setup" (JSError.mk none none "boom")
        = "Failure during setup: undefined"
    ∧ ((preReportMsg "setup" (JSError.mk none none "boom")
        == "Failure during setup: boom") = false)
    ∧ postReportMsg "setup" (JSError.mk none none "boom")
        = "Failure during setup: boom"
    ∧ (safeCallPluginFun ⟨[], false⟩ "A" "setup"
          (HookBehavior.throws (JSError.mk none none "boom")) JSVal.undef).state.assertions
        = [("A Plugin Tests",
            [⟨false, JField.str "Failure during setup: undefined", JField.absent⟩])] := by
  refine ⟨rfl, by decide, rfl, rfl⟩

/-- C4: a hook that throws a value synchronously and a hook that returns
a promise rejecting with the same value have identical observable
outcomes: the same state change (the same single failed assertion, with
the same message and stack trace), the same printed output, and the same
successful fulfilment value; and inside any dispatch, swapping the one
for the other leaves the combined result array (names and values,
position by position) unchanged. -/
theorem throw_reject_observational_equiv :
    ∀ (st : PluginsState) (pluginName funName : String) (e : JSError)
      (failReturnVal : JSVal) (t : Nat),
    (safeCallPluginFun st pluginName funName (HookBehavior.throws e)
        failReturnVal).state
      = (safeCallPluginFun st pluginName funName (HookBehavior.retRejected e t)
          failReturnVal).state
    ∧ (safeCallPluginFun st pluginName funName (HookBehavior.throws e)
          failReturnVal).printed
      = (safeCallPluginFun st pluginName funName (HookBehavior.retRejected e t)
          failReturnVal).printed
    ∧ (safeCallPluginFun st pluginName funName (HookBehavior.throws e)
          failReturnVal).settled.valueOf = some failReturnVal
    ∧ (safeCallPluginFun st pluginName funName (HookBehavior.retRejected e t)
          failReturnVal).settled.valueOf = some failReturnVal
    ∧ ∀ (stD : PluginsState) (H : String) (pt : PromiseType)
        (frvOpt : Option Bool) (args : List JSVal) (n : String)
        (pre post : List MPlugin),
      (runDispatch stD (pluginFunFactory H pt frvOpt) args
          (pre ++ withHook n H (fun _ => HookBehavior.throws e) :: post)).map
          (fun x => (x.1, x.2.valueOf))
        = (runDispatch stD (pluginFunFactory H pt frvOpt) args
            (pre ++ withHook n H (fun _ => HookBehavior.retRejected e t) :: post)).map
            (fun x => (x.1, x.2.valueOf)) := by
  intro st pn fn e frv t
  refine ⟨?_, ?_, ?_, ?_, ?_⟩
  · show (logErrorRun st pn fn e frv 0).state = (logErrorRun st pn fn e frv t).state
    unfold logErrorRun; split <;> rfl
  · show (logErrorRun st pn fn e frv 0).printed = (logErrorRun st pn fn e frv t).printed
    unfold logErrorRun; split <;> rfl
  · rw [safeCallPluginFun_settled]; rfl
  · rw [safeCallPluginFun_settled]; rfl
  · intro stD H pt frvOpt args n pre post
    rw [runDispatch_append, runDispatch_append]
    simp only [List.map_append]
    congr 1
    simp [runDispatch, withHook, pluginFunFactory, safeCallPluginFun_settled,
      callSettledValue, Settlement.valueOf]

/-- C5: a dispatch generated by `pluginFunFactory` for hook `H` invokes
`H` exactly on the registered plugins that define `H`, in registration
order; the combined array holds exactly those plugins' call settlements
in that order; and changing only the completion times of the individual
promises (in particular, reordering which completes first) leaves the
name/value array unchanged. -/
theorem dispatch_registration_order :
    ∀ (st : PluginsState) (H : String) (pt : PromiseType)
      (frvOpt : Option Bool) (plugins : List MPlugin) (args : List JSVal),
    (runDispatch st (pluginFunFactory H pt frvOpt) args plugins).map Prod.fst
        = (plugins.filter (fun p => (p.hooks H).isSome)).map MPlugin.name
    ∧ runDispatch st (pluginFunFactory H pt frvOpt) args plugins
        = plugins.filterMap (fun p => (p.hooks H).map (fun f =>
            (p.name, Settlement.fulfilled
              (callSettledValue (f args) (jsOfOptBool frvOpt))
              (behaviorTime (f args)))))
    ∧ ∀ g : Nat → Nat,
        (runDispatch st (pluginFunFactory H pt frvOpt) args
            (plugins.map (retimeP g))).map nameValue
          = (runDispatch st (pluginFunFactory H pt frvOpt) args plugins).map
              nameValue := by
  intro st H pt frvOpt plugins args
  exact ⟨runDispatch_names st (pluginFunFactory H pt frvOpt) args plugins,
    runDispatch_eq_filterMap st (pluginFunFactory H pt frvOpt) args plugins,
    fun g => runDispatch_retime_values st (pluginFunFactory H pt frvOpt) args g plugins⟩

/-- C6: the `failedCount` field computed by `getResults` equals the
number of assertion records, across all spec names in the store, whose
`passed` field is `false`; and running `getResults` again on the
resulting state (same store) yields the same `failedCount`. -/
theorem getResults_failedCount :
    ∀ st : PluginsState,
    (getResults st).1.failedCount
        = (storeJoin st.assertions).countP (fun a => a.passed == false)
    ∧ (getResults (getResults st).2).1.failedCount
        = (getResults st).1.failedCount := by
  intro st
  constructor
  · simpa using getResults_foldl_failedCount st.assertions ⟨0, []⟩
  · rfl

/-- C7: when the resolved plugin instance lacks an own (truthy) name, the
name assigned by `annotatePluginObj` is the first non-empty value among
the configured name, configured path and configured package, with the
positional fallback `Plugin #<index>` when all three are missing or
empty. -/
theorem plugin_name_priority :
    ∀ (objName confName confPath confPackage : Option String) (i : Nat),
    truthyS objName = false →
    assignName objName confName confPath confPackage i
        = specFirstNonEmptyName confName confPath confPackage i := by
  intro objName cn cp cpk i h
  have hobj : ∀ b : String, jsOrStr objName b = b := by
    intro b
    cases objName with
    | none => rfl
    | some s =>
        simp [truthyS] at h
        simp [jsOrStr, h]
  unfold assignName specFirstNonEmptyName
  rw [hobj]
  rcases cn with _ | s1 <;> rcases cp with _ | s2 <;> rcases cpk with _ | s3 <;>
    simp [jsOrStr, firstNonEmpty] <;> split_ifs <;> simp_all [firstNonEmpty]

/-- Witness for C7 at a concrete nameless entry. -/
theorem plugin_name_priority_witness :
    truthyS none = false
    ∧ assignName none (some "nm") (some "pth") none 3
        = specFirstNonEmptyName (some "nm") (some "pth") none 3 :=
  ⟨rfl, plugin_name_priority none (some "nm") (some "pth") none 3 rfl⟩

/-- C8: `waitForCondition` is the only dispatch point whose fail value is
`true` — the seven others use `undefined` — and a `waitForCondition` hook
that throws contributes `true` (not `undefined`) at its position of the
combined result array. -/
theorem waitForCondition_fail_value :
    Plugins.waitForCondition.failReturnVal = JSVal.boolV true
    ∧ Plugins.setup.failReturnVal = JSVal.undef
    ∧ Plugins.teardown.failReturnVal = JSVal.undef
    ∧ Plugins.postResults.failReturnVal = JSVal.undef
    ∧ Plugins.postTest.failReturnVal = JSVal.undef
    ∧ Plugins.onPageLoad.failReturnVal = JSVal.undef
    ∧ Plugins.onPageStable.failReturnVal = JSVal.undef
    ∧ Plugins.waitForPromise.failReturnVal = JSVal.undef
    ∧ ∀ (st : PluginsState) (args : List JSVal) (e : JSError) (n : String)
        (pre post : List MPlugin),
      runDispatch st Plugins.waitForCondition args
          (pre ++ withHook n "waitForCondition"
            (fun _ => HookBehavior.throws e) :: post)
        = runDispatch st Plugins.waitForCondition args pre
          ++ (n, Settlement.fulfilled (JSVal.boolV true) 0)
            :: runDispatch st Plugins.waitForCondition args post := by
  refine ⟨rfl, rfl, rfl, rfl, rfl, rfl, rfl, rfl, ?_⟩
  intro st args e n pre post
  rw [runDispatch_append]
  simp [runDispatch, withHook, Plugins.waitForCondition, pluginFunFactory,
    jsOfOptBool, safeCallPluginFun_settled, callSettledValue, behaviorTime]

/-- C9: `addWarning` never mutates the assertion store or the
`resultsReported` flag — it returns the state it was given unchanged,
with exactly one log line — so `getResults` on the state after a warning
is `getResults` on the state before it: warnings never appear in
`specResults` and never contribute to `failedCount`. -/
theorem addWarning_frame :
    ∀ (st : PluginsState) (n : String) (m : Option String)
      (o : Option AssertInfo),
    capAddWarning st n m o = CapResult.ok st [addWarningLine n m o]
    ∧ getResults ((capAddWarning st n m o).stateD st) = getResults st := by
  intro st n m o
  exact ⟨rfl, rfl⟩

/-- C10: the record built for a success is exactly `{passed: true}` with
no `errorMsg` and no `stackTrace` field; the record built for a failure
has `passed = false`, always carries an `errorMsg` field, and carries a
`stackTrace` field only when the caller supplied a truthy
`info.stackTrace`; and any record in the store after a successful
`addAssertion` is either an old record or the record so built. -/
theorem assertion_record_shape :
    ∀ (st st' : PluginsState) (n : String) (info : Option AssertInfo)
      (msg stk : Option String) (p : Bool) (logs : List String),
    mkAssertion true msg stk
        = { passed := true, errorMsg := JField.absent, stackTrace := JField.absent }
    ∧ (mkAssertion false msg stk).passed = false
    ∧ (mkAssertion false msg stk).errorMsg.isAbsent = false
    ∧ ((mkAssertion false msg stk).stackTrace.isAbsent = false →
        truthyS stk = true)
    ∧ (addAssertion st n info p msg = CapResult.ok st' logs →
        ∀ a ∈ storeJoin st'.assertions,
          a ∈ storeJoin st.assertions
          ∨ a = mkAssertion p msg ((info.getD ⟨none, none⟩).stackTrace)) := by
  intro st st' n info msg stk p logs
  refine ⟨rfl, ?_, ?_, ?_, ?_⟩
  · simp [mkAssertion]
  · cases msg <;> simp [mkAssertion, JField.isAbsent]
  · intro h
    cases stk with
    | none => simp [mkAssertion, JField.isAbsent] at h
    | some s =>
        by_cases hs : s = ""
        · simp [mkAssertion, hs, JField.isAbsent] at h
        · simp [truthyS, hs]
  · intro h a ha
    unfold addAssertion at h
    by_cases hr : st.resultsReported
    · simp [hr] at h
    · simp [hr] at h
      obtain ⟨hst, -⟩ := h
      subst hst
      simp only [addAssertionCore] at ha
      exact mem_storeJoin_push ha

/-- Witness for C10 at concrete records and a concrete store push. -/
theorem assertion_record_shape_witness :
    truthyS (some "tr") = true
    ∧ (mkAssertion false (some "x") none ∈ storeJoin ([] : Store)
       ∨ mkAssertion false (some "x") none
          = mkAssertion false (some "x") none) := by
  constructor
  · exact (assertion_record_shape ⟨[], false⟩ ⟨[], false⟩ "A" none (some "x")
      (some "tr") false []).2.2.2.1 (by decide)
  · exact (assertion_record_shape ⟨[], false⟩
      ⟨[("A Plugin Tests", [mkAssertion false (some "x") none])], false⟩ "A"
      none (some "x") (some "tr") false []).2.2.2.2 rfl
      (mkAssertion false (some "x") none) (by decide)

end Protractor
